import Mathlib

/-!
Shallow embedding of the redis-go server core: the RESP-style protocol
decoder and the expiring key-value store of `handleConnection`
(src/unnamed/part_000, the final revision of the corpus; the earlier
near-duplicate revisions in src/app/main.go and src/unnamed/part_001 are
superseded iterations of the same logic).

Modelling conventions:
- the TCP byte stream is a `List Char` (one `Char` per byte; all traffic
  in the claims is ASCII);
- `time.Time` values are `Int` timestamps in nanoseconds (the resolution
  of `time.Time` and of `time.Duration`); the Go zero `time.Time` (the
  "never expires" sentinel tested via `IsZero`) is `0`; `time.Duration`
  arithmetic is int64 and wraps (`wrap64`), and `strconv` parsing carries
  the 64-bit range check;
- the Go map `map[string]Value` is an association list updated
  destructively (`mapSet` replaces any previous binding);
- replies written to the connection are accumulated as one `String`;
- Go runtime panics (negative-size `make`, negative slice bound, nil
  pointer dereference) are modelled explicitly: the decoder returns a
  `panicked` outcome and fallible dispatch arms return `Option`.
-/

namespace RedisGo

/-- Accumulator for Go `strconv.Atoi` digit parsing: consumes decimal
digits, failing on any non-digit character. -/
def digitsValAux : List Char → Nat → Option Nat
  | [], acc => some acc
  | c :: rest, acc =>
    if c.isDigit then digitsValAux rest (acc * 10 + (c.toNat - '0'.toNat)) else none

/-- Value of a nonempty all-digit string; `none` on an empty string or on
any non-digit character. -/
def digitsVal (l : List Char) : Option Nat :=
  match l with
  | [] => none
  | _ :: _ => digitsValAux l 0

/-- Syntactic part of Go `strconv.Atoi` / `strconv.ParseInt(s, 10, 64)`:
an optional sign followed by at least one decimal digit; anything else is
an error (`none`). -/
def goAtoiRaw (l : List Char) : Option Int :=
  match l with
  | '+' :: rest => (digitsVal rest).map (fun n => (n : Int))
  | '-' :: rest => (digitsVal rest).map (fun n => -(n : Int))
  | _ => (digitsVal l).map (fun n => (n : Int))

/-- Smallest int64 value, -2^63. -/
def int64Min : Int := -9223372036854775808

/-- Largest int64 value, 2^63 - 1. -/
def int64Max : Int := 9223372036854775807

/-- Go `strconv.Atoi` / `strconv.ParseInt(s, 10, 64)` (also `Atoi`'s
`bitSize 0` on a 64-bit platform): the sign-and-digits syntax plus the
64-bit range check — a syntactically valid numeral outside
[-2^63, 2^63-1] is an ErrRange error, which the callers treat like any
other parse error. -/
def goAtoiL (l : List Char) : Option Int :=
  match goAtoiRaw l with
  | none => none
  | some v => if int64Min ≤ v ∧ v ≤ int64Max then some v else none

/-- Two's-complement wraparound of an integer into the int64 range, the
defined behavior of overflowing int64 arithmetic in Go. -/
def wrap64 (x : Int) : Int :=
  (x + 9223372036854775808) % 18446744073709551616 - 9223372036854775808

/-- `time.Duration(ms) * time.Millisecond`: `time.Duration` is an int64
count of nanoseconds, so the product is `ms * 10^6` wrapped into int64;
for `|ms| > 9223372036854` (about 292 years) it silently wraps around. -/
def goMsDuration (ms : Int) : Int :=
  wrap64 (ms * 1000000)

/-- Go `strings.ToUpper` restricted to ASCII, which covers every command
word compared in the dispatcher. -/
def goToUpper (s : String) : String :=
  String.mk (s.toList.map Char.toUpper)

/-- `bufio.Reader.ReadString('\n')`: the line up to and including the
first newline, plus the remaining stream; `none` when the stream ends
before a newline is seen (the code treats any read error, EOF included,
as connection-terminating). -/
def readLine : List Char → Option (List Char × List Char)
  | [] => none
  | c :: rest =>
    if c = '\n' then some ([c], rest)
    else
      match readLine rest with
      | none => none
      | some (l, r) => some (c :: l, r)

/-- Go `strings.TrimSuffix(line, "\r\n")`. -/
def trimCRLF (l : List Char) : List Char :=
  match l.reverse with
  | '\n' :: '\r' :: rest => rest.reverse
  | _ => l

/-- `io.ReadFull` of exactly `n` bytes: `none` when fewer than `n` bytes
remain (ErrUnexpectedEOF), which the code treats as connection-fatal. -/
def readFull (n : Nat) (input : List Char) : Option (List Char × List Char) :=
  if n ≤ input.length then some (input.take n, input.drop n) else none

/-- The enum `DataType` of src/unnamed/part_000. -/
inductive DataType where
  | String
  | List
deriving DecidableEq

/-- `storageEntry`: a string value with its expiry (`0` = zero
`time.Time` = never expires). -/
structure storageEntry where
  value : String
  expiresAt : Int
deriving DecidableEq

/-- The `Value` struct of src/unnamed/part_000: a tag plus one field per
variant (`strData` is a possibly-nil pointer, `listData` a possibly-nil
slice), exactly as in the Go struct. -/
structure Value where
  dataType : DataType
  strData : Option storageEntry
  listData : List String
deriving DecidableEq

/-- The global `storage` map, as an association list. -/
abbrev Store := List (String × Value)

/-- Go map read `storage[key]`. -/
def mapGet (st : Store) (key : String) : Option Value :=
  match st.find? (fun p => p.1 == key) with
  | none => none
  | some p => some p.2

/-- Go `delete(storage, key)`. -/
def mapDel (st : Store) (key : String) : Store :=
  st.filter (fun p => !(p.1 == key))

/-- Go map write `storage[key] = v` (replaces any previous binding). -/
def mapSet (st : Store) (key : String) (v : Value) : Store :=
  mapDel st key ++ [(key, v)]

/-- RESP bulk-string reply `$<len>\r\n<bytes>\r\n`. -/
def bulkReply (s : String) : String :=
  "$" ++ toString s.length ++ "\r\n" ++ s ++ "\r\n"

/-- The `-WRONGTYPE` error reply of the GET arm. -/
def wrongTypeReply : String :=
  "-WRONGTYPE Operation against a key holding the wrong kind of value\r\n"

/-- The SET arm of the dispatcher switch (src/unnamed/part_000 lines
118-146): arity check, optional exact-5-argument `PX` form whose parse
failure is silently ignored, unconditional store of a string variant.
The expiry is `time.Now().Add(time.Duration(ms) * time.Millisecond)`:
the current nanosecond timestamp plus the int64-wrapped nanosecond
product (`Time.Add` itself does not overflow for any realistic clock
plus an int64 duration). -/
def setCmd (st : Store) (command : List String) (now : Int) : String × Store :=
  if command.length ≥ 3 then
    let key := command.getD 1 ""
    let value := command.getD 2 ""
    let expiryTime : Int :=
      if command.length = 5 ∧ goToUpper (command.getD 3 "") = "PX" then
        match goAtoiL (command.getD 4 "").toList with
        | some ms => now + goMsDuration ms
        | none => 0
      else 0
    ("+OK\r\n", mapSet st key ⟨.String, some ⟨value, expiryTime⟩, []⟩)
  else ("-ERR wrong number of arguments for 'set' command\r\n", st)

/-- The GET arm (src/unnamed/part_000 lines 148-181): absent key is a
null bulk string; a string entry whose set expiry has passed is deleted
and reported absent; a live string entry is returned; any other variant
is a WRONGTYPE error. Dereferencing a nil `strData` is a runtime fault,
modelled as `none`. -/
def getCmd (st : Store) (command : List String) (now : Int) : Option (String × Store) :=
  if command.length ≥ 2 then
    match mapGet st (command.getD 1 "") with
    | none => some ("$-1\r\n", st)
    | some entry =>
      match entry.dataType with
      | .String =>
        match entry.strData with
        | none => none
        | some sd =>
          if ¬sd.expiresAt = 0 ∧ now > sd.expiresAt then
            some ("$-1\r\n", mapDel st (command.getD 1 ""))
          else
            some (bulkReply sd.value, st)
      | .List => some (wrongTypeReply, st)
  else some ("-ERR wrong number of arguments for 'get' command\r\n", st)

/-- The RPUSH arm (src/unnamed/part_000 lines 182-200): unconditionally
replaces the key with a fresh single-element list variant and replies
with the new list's length. -/
def rpushCmd (st : Store) (command : List String) : String × Store :=
  if command.length ≥ 3 then
    let key := command.getD 1 ""
    let element := command.getD 2 ""
    let newList : List String := [element]
    (":" ++ toString newList.length ++ "\r\n", mapSet st key ⟨.List, none, newList⟩)
  else ("-ERR wrong number of arguments for 'rpush' command\r\n", st)

/-- The ECHO arm: echoes the argument when present, otherwise writes
nothing. -/
def echoCmd (st : Store) (command : List String) : String × Store :=
  if command.length > 1 then (bulkReply (command.getD 1 ""), st) else ("", st)

/-- The dispatcher switch on the uppercased first argument. `none` marks
a Go runtime fault inside an arm. -/
def dispatch (st : Store) (command : List String) (now : Int) : Option (String × Store) :=
  match command.head? with
  | none => some ("", st)
  | some first =>
    let cmd := goToUpper first
    if cmd = "PING" then some ("+PONG\r\n", st)
    else if cmd = "ECHO" then some (echoCmd st command)
    else if cmd = "SET" then some (setCmd st command now)
    else if cmd = "GET" then getCmd st command now
    else if cmd = "RPUSH" then some (rpushCmd st command)
    else some ("-ERR unknown command\r\n", st)

/-- Outcome of the inner argument-collection loop (`for i := 0; i <
numElements; i++`). -/
inductive ArgsResult where
  | terminate
  | panicked
  | done (args : List String) (rest : List Char)
deriving DecidableEq

/-- The inner loop of the decoder (src/unnamed/part_000 lines 84-105):
for each expected argument, read a `$<L>` line (read error terminates;
missing `$` or non-numeric length breaks out, keeping what was
collected), then read exactly `L+2` bytes and keep the first `L`.
`make([]byte, bulkLen+2)` with `bulkLen+2 < 0` and the slice
`data[:bulkLen]` with `bulkLen < 0` are Go runtime panics, in that
order relative to the read. -/
def readArgs : Nat → List String → List Char → ArgsResult
  | 0, acc, _input => .done acc _input
  | n + 1, acc, input =>
    match readLine input with
    | none => .terminate
    | some (line, rest) =>
      match trimCRLF line with
      | [] => .done acc rest
      | c :: tl =>
        if c = '$' then
          match goAtoiL tl with
          | none => .done acc rest
          | some bulkLen =>
            if bulkLen + 2 < 0 then .panicked
            else
              match readFull (bulkLen + 2).toNat rest with
              | none => .terminate
              | some (data, rest2) =>
                if bulkLen < 0 then .panicked
                else readArgs n (acc ++ [String.mk (data.take bulkLen.toNat)]) rest2
        else .done acc rest

/-- Outcome of one iteration of the outer connection loop, up to (but not
including) dispatch. -/
inductive StepResult where
  | terminate
  | panicked
  | step (command : List String) (rest : List Char)
deriving DecidableEq

/-- One iteration of the outer loop of `handleConnection`
(src/unnamed/part_000 lines 66-105): read a line (read error/EOF
terminates), skip it unless it is `*<N>` with a parseable `N`, then
collect up to `N` arguments. -/
def decodeStep (input : List Char) : StepResult :=
  match readLine input with
  | none => .terminate
  | some (line, rest) =>
    match trimCRLF line with
    | [] => .step [] rest
    | c :: tl =>
      if c = '*' then
        match goAtoiL tl with
        | none => .step [] rest
        | some n =>
          match readArgs n.toNat [] rest with
          | .terminate => .terminate
          | .panicked => .panicked
          | .done args rest2 => .step args rest2
      else .step [] rest

/-- How a finite run of the connection loop ended. -/
inductive RunOutcome where
  | ok
  | fault
  | outOfFuel
deriving DecidableEq

/-- The connection loop of `handleConnection`: repeatedly decode one
command and, when at least one argument was collected, dispatch it.
`fuel` bounds the number of iterations (the Go loop runs until the
stream ends); the result is the concatenation of all replies written,
the final store, and how the loop ended. -/
def handleConnection : Nat → Store → Int → List Char → String × Store × RunOutcome
  | 0, st, _, _ => ("", st, .outOfFuel)
  | fuel + 1, st, now, input =>
    match decodeStep input with
    | .terminate => ("", st, .ok)
    | .panicked => ("", st, .fault)
    | .step command rest =>
      match command with
      | [] => handleConnection fuel st now rest
      | _ :: _ =>
        match dispatch st command now with
        | none => ("", st, .fault)
        | some (out, st2) =>
          let (out2, st3, r) := handleConnection fuel st2 now rest
          (out ++ out2, st3, r)

/-- A `Value` is well-formed when its payload fields match its tag: a
string variant carries a non-nil `strData` and a nil `listData`, and a
list variant carries a nil `strData`. Every value the code constructs
has this shape. -/
def Value.wf (v : Value) : Prop :=
  match v.dataType with
  | .String => v.strData.isSome = true ∧ v.listData = []
  | .List => v.strData = none

/-- Every stored value is well-formed: each key holds exactly one
variant's payload. -/
def storeWF (st : Store) : Prop := ∀ p ∈ st, Value.wf p.2

end RedisGo

namespace RedisGo

theorem mapGet_mapDel_self (st : Store) (k : String) : mapGet (mapDel st k) k = none := by
  induction st with
  | nil => rfl
  | cons a tl ih =>
    by_cases h : a.1 = k
    · simpa [mapDel, List.filter_cons, h] using ih
    · simpa [mapGet, mapDel, List.filter_cons, List.find?_cons, h] using ih

theorem mapGet_mapSet_self (st : Store) (k : String) (v : Value) :
    mapGet (mapSet st k v) k = some v := by
  induction st with
  | nil => simp [mapSet, mapDel, mapGet, List.find?_cons]
  | cons a tl ih =>
    by_cases h : a.1 = k
    · simpa [mapSet, mapDel, List.filter_cons, h] using ih
    · simpa [mapGet, mapSet, mapDel, List.filter_cons, List.find?_cons, h] using ih

/-- Claim C4: for every key `k` and value `v`, `SET k v` with no TTL stores a
never-expiring string entry and replies `+OK`, and an immediately following
`GET k` (at any later time, with no intervening operation on `k`) returns `v`
as a bulk string, leaving the store unchanged. -/
theorem set_noTTL_get (st : Store) (k v : String) (t0 now : Int) :
    setCmd st ["SET", k, v] t0 = ("+OK\r\n", mapSet st k ⟨.String, some ⟨v, 0⟩, []⟩) ∧
    getCmd (mapSet st k ⟨.String, some ⟨v, 0⟩, []⟩) ["GET", k] now =
      some (bulkReply v, mapSet st k ⟨.String, some ⟨v, 0⟩, []⟩) := by
  constructor
  · simp [setCmd]
  · simp [getCmd, mapGet_mapSet_self]

/-- Claim C5: for every key `k` currently holding a non-`StringValue` variant
(a list written by RPUSH), `GET k` replies with the WRONGTYPE error — distinct
from the `$-1` absence reply — the store (hence the stored value for `k`) is
left unchanged, and dispatch returns normally so the connection stays open. -/
theorem get_wrongType (st : Store) (k : String) (now : Int) (val : Value)
    (hget : mapGet st k = some val) (hty : val.dataType = .List) :
    getCmd st ["GET", k] now = some (wrongTypeReply, st) ∧ wrongTypeReply ≠ "$-1\r\n" := by
  constructor
  · simp [getCmd, hget, hty]
  · decide

/-- Claim C6: for every prior store state (key absent, string, or existing
list), `RPUSH k e` replaces the entry for `k` with a single-element list
variant containing exactly `e` and replies with the integer 1 as the
resulting list length. -/
theorem rpush_single (st : Store) (k e : String) :
    rpushCmd st ["RPUSH", k, e] = (":1\r\n", mapSet st k ⟨.List, none, [e]⟩) ∧
    mapGet (mapSet st k ⟨.List, none, [e]⟩) k = some ⟨.List, none, [e]⟩ := by
  refine ⟨?_, mapGet_mapSet_self st k _⟩
  simp [rpushCmd]
  rfl

theorem wrap64_eq_self (x : Int) (h1 : -9223372036854775808 ≤ x)
    (h2 : x ≤ 9223372036854775807) : wrap64 x = x := by
  unfold wrap64
  omega

/-- Claim C2, counterexample to the claim as stated: with TTL
`t = 10^13` milliseconds (`SET k v PX 10000000000000`, issued at a 2023
clock reading in nanoseconds), Go computes the duration `10^13 * 10^6`
nanoseconds, which overflows int64 and wraps to a negative duration, so
the stored expiry lies in the past. A `GET` one nanosecond later — long
before `t` has elapsed — returns the null bulk string and deletes the
key instead of returning `v`. -/
theorem px_wrap_before_elapsed_absent :
    getCmd (setCmd [] ["SET", "k", "v", "PX", "10000000000000"] 1700000000000000000).2
        ["GET", "k"] 1700000000000000001 =
      some ("$-1\r\n", []) ∧
    ("$-1\r\n" : String) ≠ bulkReply "v" := by
  decide

/-- Claim C2 (amended): for every key `k`, value `v` and TTL `t`
(the parsed `PX` millisecond argument) with `0 < t ≤ 9223372036854` — so
that the nanosecond conversion `t * 10^6` does not overflow int64 —
`SET k v PX t` at time `t0` stores expiry `t0 + t` (in nanoseconds,
`t0 + t * 10^6`); a `GET k` before `t` has elapsed returns `v`, and a
`GET k` after `t` has elapsed returns the null bulk string and, as a
side effect, deletes `k`, so the store no longer contains `k`
afterwards. The hypothesis `0 < t0 + t * 10^6` says the computed expiry
is not the zero-time sentinel, which always holds for a real clock.
Beyond the `9223372036854` ms bound the duration wraps (see the
counterexample), and ms numerals outside int64 fail to parse, storing a
never-expiring entry. -/
theorem set_px_get_expiry (st : Store) (k v s : String) (t t0 now1 now2 : Int)
    (hs : goAtoiL s.toList = some t) (htpos : 0 < t) (htmax : t ≤ 9223372036854)
    (hpos : 0 < t0 + t * 1000000) :
    setCmd st ["SET", k, v, "PX", s] t0 =
      ("+OK\r\n", mapSet st k ⟨.String, some ⟨v, t0 + t * 1000000⟩, []⟩) ∧
    (now1 - t0 < t * 1000000 →
      getCmd (mapSet st k ⟨.String, some ⟨v, t0 + t * 1000000⟩, []⟩) ["GET", k] now1 =
        some (bulkReply v, mapSet st k ⟨.String, some ⟨v, t0 + t * 1000000⟩, []⟩)) ∧
    (now2 - t0 > t * 1000000 →
      getCmd (mapSet st k ⟨.String, some ⟨v, t0 + t * 1000000⟩, []⟩) ["GET", k] now2 =
        some ("$-1\r\n", mapDel (mapSet st k ⟨.String, some ⟨v, t0 + t * 1000000⟩, []⟩) k) ∧
      mapGet (mapDel (mapSet st k ⟨.String, some ⟨v, t0 + t * 1000000⟩, []⟩) k) k = none) := by
  have hs' : goAtoiL s.data = some t := hs
  have hfits : goMsDuration t = t * 1000000 := by
    unfold goMsDuration
    apply wrap64_eq_self
    · omega
    · omega
  refine ⟨?_, ?_, ?_⟩
  · have h1 : setCmd st ["SET", k, v, "PX", s] t0 =
        ("+OK\r\n", mapSet st k ⟨.String, some ⟨v, t0 + goMsDuration t⟩, []⟩) := by
      simp [setCmd, hs', show goToUpper "PX" = "PX" from by decide]
    rw [hfits] at h1
    exact h1
  · intro h
    have hlt : ¬ now1 > t0 + t * 1000000 := by omega
    simp [getCmd, mapGet_mapSet_self, hlt]
  · intro h
    have h1 : ¬ (t0 + t * 1000000) = 0 := by omega
    have h2 : now2 > t0 + t * 1000000 := by omega
    simp [getCmd, mapGet_mapSet_self, h1, h2, mapGet_mapDel_self]

/-- Claim C8, counterexample to the claim as stated: `SET k v PX
10000000000000` at time 0 does not store an expiry of `now` plus
`10^13` milliseconds (`10^19` ns). The int64 nanosecond product wraps,
and the entry's stored expiry is `-8446744073709551616`. -/
theorem px_duration_wrap_stored_expiry :
    (setCmd [] ["SET", "k", "v", "PX", "10000000000000"] 0).2 =
      [("k", ⟨.String, some ⟨"v", -8446744073709551616⟩, []⟩)] ∧
    (-8446744073709551616 : Int) ≠ 0 + 10000000000000 * 1000000 := by
  decide

/-- Claim C8 (amended): a SET command with fewer than 3 arguments is an
arity error. The exact 5-argument form whose 4th argument is
case-insensitively `PX` and whose 5th argument parses as an int64 stores
expiry `now + goMsDuration ms`, the current time plus the int64-wrapped
nanosecond product `ms * 10^6` — equal to the current time plus `ms`
milliseconds exactly when that product fits in int64; an ms numeral
outside int64 range fails to parse and the value is stored with no
expiry. Any other trailing arguments are ignored without validation and
the value is stored with no expiry (sentinel 0). -/
theorem set_arity_px_and_trailing (st : Store) (now : Int) (a k v px ms : String)
    (n : Int) (rest : List String)
    (hpx : goToUpper px = "PX") (hms : goAtoiL ms.toList = some n)
    (hrest : ∀ p s, rest = [p, s] → goToUpper p ≠ "PX") :
    setCmd st ["SET"] now = ("-ERR wrong number of arguments for 'set' command\r\n", st) ∧
    setCmd st ["SET", a] now = ("-ERR wrong number of arguments for 'set' command\r\n", st) ∧
    setCmd st ["SET", k, v, px, ms] now =
      ("+OK\r\n", mapSet st k ⟨.String, some ⟨v, now + goMsDuration n⟩, []⟩) ∧
    (-9223372036854775808 ≤ n * 1000000 → n * 1000000 ≤ 9223372036854775807 →
      setCmd st ["SET", k, v, px, ms] now =
        ("+OK\r\n", mapSet st k ⟨.String, some ⟨v, now + n * 1000000⟩, []⟩)) ∧
    setCmd st ["SET", k, v, px, "9223372036854775808"] now =
      ("+OK\r\n", mapSet st k ⟨.String, some ⟨v, 0⟩, []⟩) ∧
    setCmd st ("SET" :: k :: v :: rest) now =
      ("+OK\r\n", mapSet st k ⟨.String, some ⟨v, 0⟩, []⟩) := by
  have hms' : goAtoiL ms.data = some n := hms
  have hbig : goAtoiL "9223372036854775808".data = none := by decide
  refine ⟨by simp [setCmd], by simp [setCmd], by simp [setCmd, hpx, hms'], ?_, ?_, ?_⟩
  · intro hlo hhi
    have hfits : goMsDuration n = n * 1000000 := by
      unfold goMsDuration
      exact wrap64_eq_self _ hlo hhi
    have h1 : setCmd st ["SET", k, v, px, ms] now =
        ("+OK\r\n", mapSet st k ⟨.String, some ⟨v, now + goMsDuration n⟩, []⟩) := by
      simp [setCmd, hpx, hms']
    rw [hfits] at h1
    exact h1
  · simp [setCmd, hpx, hbig]
  · rcases rest with _ | ⟨p, _ | ⟨q, _ | ⟨r, rs⟩⟩⟩
    · simp [setCmd]
    · simp [setCmd]
    · simp [setCmd, hrest p q rfl]
    · have hlen : ¬ ("SET" :: k :: v :: p :: q :: r :: rs).length = 5 := by
        simp
      simp [setCmd, hlen]

/-- Claim C10: a 5-argument `SET k v PX ms` whose milliseconds argument does
not parse still succeeds: the parse failure is silently swallowed, the entry
is stored with the no-expiry sentinel, the reply is `+OK`, and a later `GET`
at any time returns `v` (the entry never expires). -/
theorem set_px_parse_fail (st : Store) (now now2 : Int) (k v px ms : String)
    (hpx : goToUpper px = "PX") (hms : goAtoiL ms.toList = none) :
    setCmd st ["SET", k, v, px, ms] now =
      ("+OK\r\n", mapSet st k ⟨.String, some ⟨v, 0⟩, []⟩) ∧
    getCmd (mapSet st k ⟨.String, some ⟨v, 0⟩, []⟩) ["GET", k] now2 =
      some (bulkReply v, mapSet st k ⟨.String, some ⟨v, 0⟩, []⟩) := by
  have hms' : goAtoiL ms.data = none := hms
  constructor
  · simp [setCmd, hpx, hms']
  · simp [getCmd, mapGet_mapSet_self]

theorem storeWF_mapDel (st : Store) (k : String) (hwf : storeWF st) :
    storeWF (mapDel st k) := by
  intro p hp
  exact hwf p (List.mem_of_mem_filter hp)

theorem storeWF_mapSet (st : Store) (k : String) (v : Value) (hwf : storeWF st)
    (hv : Value.wf v) : storeWF (mapSet st k v) := by
  intro p hp
  rcases List.mem_append.mp hp with hp1 | hp2
  · exact storeWF_mapDel st k hwf p hp1
  · rcases List.mem_singleton.mp hp2 with rfl
    exact hv

theorem mapGet_wf (st : Store) (k : String) (val : Value) (hwf : storeWF st)
    (hget : mapGet st k = some val) : Value.wf val := by
  unfold mapGet at hget
  cases hfind : st.find? (fun p => p.1 == k) with
  | none => rw [hfind] at hget; exact absurd hget (by simp)
  | some p =>
    rw [hfind] at hget
    have hmem : p ∈ st := List.mem_of_find?_eq_some hfind
    have : p.2 = val := by simpa using hget
    rw [← this]
    exact hwf p hmem

/-- Claim C7: every key maps to at most one `Value`, whose payload fields
match its variant tag (`storeWF`), and every operation preserves this;
moreover a `GET` on a well-formed store never hits the nil-`strData`
dereference. In particular `SET k v` on a key previously holding a list
replaces the entire value with a string variant, so a subsequent `GET k`
returns `v` as a bulk string. -/
theorem value_variant_invariant (st : Store) (command : List String) (now now2 : Int)
    (k v : String) (hwf : storeWF st) :
    storeWF (setCmd st command now).2 ∧
    storeWF (rpushCmd st command).2 ∧
    (∀ out st2, getCmd st command now = some (out, st2) → storeWF st2) ∧
    (getCmd st command now).isSome = true ∧
    (∀ val, mapGet st k = some val → val.dataType = .List →
      mapGet (setCmd st ["SET", k, v] now).2 k = some ⟨.String, some ⟨v, 0⟩, []⟩ ∧
      getCmd (setCmd st ["SET", k, v] now).2 ["GET", k] now2 =
        some (bulkReply v, (setCmd st ["SET", k, v] now).2)) := by
  refine ⟨?_, ?_, ?_, ?_, ?_⟩
  · unfold setCmd
    split
    · exact storeWF_mapSet st _ _ hwf ⟨rfl, rfl⟩
    · exact hwf
  · unfold rpushCmd
    split
    · exact storeWF_mapSet st _ _ hwf rfl
    · exact hwf
  · intro out st2 hg
    unfold getCmd at hg
    split at hg
    · split at hg
      · simp only [Option.some.injEq, Prod.mk.injEq] at hg
        rw [← hg.2]
        exact hwf
      · split at hg
        · split at hg
          · exact absurd hg (by simp)
          · split at hg
            · simp only [Option.some.injEq, Prod.mk.injEq] at hg
              rw [← hg.2]
              exact storeWF_mapDel st _ hwf
            · simp only [Option.some.injEq, Prod.mk.injEq] at hg
              rw [← hg.2]
              exact hwf
        · simp only [Option.some.injEq, Prod.mk.injEq] at hg
          rw [← hg.2]
          exact hwf
    · simp only [Option.some.injEq, Prod.mk.injEq] at hg
      rw [← hg.2]
      exact hwf
  · cases hres : getCmd st command now with
    | some r => rfl
    | none =>
      exfalso
      unfold getCmd at hres
      split at hres
      · split at hres
        · exact absurd hres (by simp)
        · split at hres
          · split at hres
            · rename_i x1 entry hentry x2 hty x3 hsd
              have hvwf := mapGet_wf st _ entry hwf hentry
              unfold Value.wf at hvwf
              rw [hty] at hvwf
              rw [hsd] at hvwf
              simp at hvwf
            · split at hres <;> exact absurd hres (by simp)
          · exact absurd hres (by simp)
      · exact absurd hres (by simp)
  · intro val hval hty
    have hset : (setCmd st ["SET", k, v] now).2 = mapSet st k ⟨.String, some ⟨v, 0⟩, []⟩ := by
      simp [setCmd]
    rw [hset]
    exact ⟨mapGet_mapSet_self st k _, by simp [getCmd, mapGet_mapSet_self]⟩

theorem readLine_append (l rest : List Char) (h : '\n' ∉ l) :
    readLine (l ++ '\r' :: '\n' :: rest) = some (l ++ ['\r', '\n'], rest) := by
  induction l with
  | nil => rfl
  | cons c tl ih =>
    have hc : ¬ c = '\n' := fun hh => h (by simp [hh])
    have h2 : '\n' ∉ tl := fun hm => h (List.mem_cons_of_mem _ hm)
    simp only [List.cons_append, readLine, if_neg hc, List.append_eq, ih h2]

theorem trimCRLF_crlf (l : List Char) : trimCRLF (l ++ ['\r', '\n']) = l := by
  have h : (l ++ ['\r', '\n']).reverse = '\n' :: '\r' :: l.reverse := by simp
  unfold trimCRLF
  rw [h]
  simp

theorem decodeStep_skip (l rest : List Char) (h : '\n' ∉ l)
    (hshape : ∀ tl, l = '*' :: tl → goAtoiL tl = none) :
    decodeStep (l ++ '\r' :: '\n' :: rest) = .step [] rest := by
  unfold decodeStep
  rw [readLine_append l rest h]
  simp only [trimCRLF_crlf]
  cases l with
  | nil => rfl
  | cons c tl =>
    by_cases hc : c = '*'
    · subst hc
      have hnone := hshape tl rfl
      simp [hnone]
    · simp [hc]

/-- Claim C1: when the decoder reads a CRLF-terminated line that does not
begin with `*` followed by a decimal integer (empty line, wrong first
character, or unparseable count) while the stream has not ended, it discards
exactly that line and carries on with the rest of the stream: one loop
iteration is consumed, no reply bytes are written, the store is untouched and
the connection is not terminated. -/
theorem malformed_array_line_skipped (st : Store) (now : Int) (fuel : Nat)
    (l rest : List Char) (h : '\n' ∉ l)
    (hshape : ∀ tl, l = '*' :: tl → goAtoiL tl = none) :
    handleConnection (fuel + 1) st now (l ++ '\r' :: '\n' :: rest) =
      handleConnection fuel st now rest := by
  rw [handleConnection]
  rw [decodeStep_skip l rest h hshape]

theorem readArgs_malformed_first (n : Nat) (b rest : List Char) (hb : '\n' ∉ b)
    (hbshape : ∀ tl, b = '$' :: tl → goAtoiL tl = none) :
    readArgs (n + 1) [] (b ++ '\r' :: '\n' :: rest) = .done [] rest := by
  rw [readArgs]
  rw [readLine_append b rest hb]
  simp only [trimCRLF_crlf]
  cases b with
  | nil => rfl
  | cons c tl =>
    by_cases hc : c = '$'
    · subst hc
      have hnone := hbshape tl rfl
      simp [hnone]
    · simp [hc]

theorem decodeStep_malformed_bulk_first (numStr b rest : List Char) (m : Int)
    (hnum : '\n' ∉ numStr) (hm : goAtoiL numStr = some m) (hmpos : 0 < m)
    (hb : '\n' ∉ b) (hbshape : ∀ tl, b = '$' :: tl → goAtoiL tl = none) :
    decodeStep (('*' :: numStr) ++ '\r' :: '\n' :: (b ++ '\r' :: '\n' :: rest)) =
      .step [] rest := by
  have hn : '\n' ∉ ('*' :: numStr) := by
    intro hmem
    rcases List.mem_cons.mp hmem with h1 | h2
    · exact absurd h1 (by decide)
    · exact hnum h2
  unfold decodeStep
  rw [readLine_append _ _ hn]
  simp only [trimCRLF_crlf]
  obtain ⟨j, hj⟩ : ∃ j, m.toNat = j + 1 := ⟨m.toNat - 1, by omega⟩
  rw [hm]
  simp only [hj]
  rw [readArgs_malformed_first j b rest hb hbshape]
  simp

/-- Claim C3 (amended): when a bulk-length line is malformed (bad prefix
character or non-numeric length) and no argument of the current command had
been collected yet, the command is dropped, decoding resumes at the line
after the malformed one, and no reply — in particular no error reply — is
written for it. (When arguments had already been collected the code instead
dispatches them as a truncated command; see the counterexample.) -/
theorem malformed_bulk_line_dropped (st : Store) (now : Int) (fuel : Nat)
    (numStr b rest : List Char) (m : Int)
    (hnum : '\n' ∉ numStr) (hm : goAtoiL numStr = some m) (hmpos : 0 < m)
    (hb : '\n' ∉ b) (hbshape : ∀ tl, b = '$' :: tl → goAtoiL tl = none) :
    handleConnection (fuel + 1) st now
        (('*' :: numStr) ++ '\r' :: '\n' :: (b ++ '\r' :: '\n' :: rest)) =
      handleConnection fuel st now rest := by
  rw [handleConnection]
  rw [decodeStep_malformed_bulk_first numStr b rest m hnum hm hmpos hb hbshape]

/-- Claim C3, counterexample to the claim as stated: in the stream
`*2\r\n$3\r\nGET\r\nX\r\n` the line `X\r\n` is a framing malformation
(bad `$` prefix), yet the already-collected argument `GET` is dispatched as a
truncated command and the client is sent an arity error reply as a
consequence — the malformed command is not dropped silently. -/
theorem truncated_command_error_reply :
    handleConnection 2 [] 0 ("*2\r\n$3\r\nGET\r\nX\r\n".toList) =
      ("-ERR wrong number of arguments for 'get' command\r\n", [], .ok) := by
  decide

/-- Claim C9: the per-connection handler is NOT total — on the stream
`*1\r\n$-5\r\n` the bulk length parses as -5 and `make([]byte, bulkLen+2)`
is called with negative size -3, a Go runtime panic that aborts the worker
(and, being unrecovered, the process). The model evaluates to the `fault`
outcome at that input. -/
theorem negative_bulk_length_fault :
    handleConnection 1 [] 0 ("*1\r\n$-5\r\n".toList) = ("", [], .fault) := by
  decide

/-- Witness for C1: a concrete garbage line `hi\r\n` is skipped and the
following PING command stream is decoded as if the line were absent. -/
theorem malformed_array_line_skipped_witness :
    handleConnection 2 [] 0 ('h' :: 'i' :: '\r' :: '\n' :: "*1\r\n$4\r\nPING\r\n".toList) =
      handleConnection 1 [] 0 ("*1\r\n$4\r\nPING\r\n".toList) :=
  malformed_array_line_skipped [] 0 1 ['h', 'i'] "*1\r\n$4\r\nPING\r\n".toList
    (by decide)
    (fun tl h => by
      rw [List.cons.injEq] at h
      exact absurd h.1 (by decide))

/-- Witness for the amended C2 at `SET foo bar PX 100` issued at a
1-second clock reading (in nanoseconds), read back 50 ms later (live)
and 200 ms later (expired). -/
theorem set_px_get_expiry_witness :
    goAtoiL "100".toList = some 100 ∧ (0 : Int) < 100 ∧
    (100 : Int) ≤ 9223372036854 ∧ (0 : Int) < 1000000000 + 100 * 1000000 ∧
    (setCmd [] ["SET", "foo", "bar", "PX", "100"] 1000000000 =
        ("+OK\r\n", mapSet [] "foo" ⟨.String, some ⟨"bar", 1000000000 + 100 * 1000000⟩, []⟩) ∧
      ((1050000000 : Int) - 1000000000 < 100 * 1000000 →
        getCmd (mapSet [] "foo" ⟨.String, some ⟨"bar", 1000000000 + 100 * 1000000⟩, []⟩)
            ["GET", "foo"] 1050000000 =
          some (bulkReply "bar",
            mapSet [] "foo" ⟨.String, some ⟨"bar", 1000000000 + 100 * 1000000⟩, []⟩)) ∧
      ((1200000000 : Int) - 1000000000 > 100 * 1000000 →
        getCmd (mapSet [] "foo" ⟨.String, some ⟨"bar", 1000000000 + 100 * 1000000⟩, []⟩)
            ["GET", "foo"] 1200000000 =
          some ("$-1\r\n",
            mapDel (mapSet [] "foo" ⟨.String, some ⟨"bar", 1000000000 + 100 * 1000000⟩, []⟩)
              "foo") ∧
        mapGet
            (mapDel (mapSet [] "foo" ⟨.String, some ⟨"bar", 1000000000 + 100 * 1000000⟩, []⟩)
              "foo") "foo" =
          none)) :=
  ⟨by decide, by decide, by decide, by decide,
    set_px_get_expiry [] "foo" "bar" "100" 100 1000000000 1050000000 1200000000
      (by decide) (by decide) (by decide) (by decide)⟩

/-- Witness for the amended C3: `*1\r\noops\r\n` drops the command and
decoding resumes with the following PING stream. -/
theorem malformed_bulk_line_dropped_witness :
    handleConnection 2 [] 0
        (('*' :: ['1']) ++ '\r' :: '\n' ::
          (['o', 'o', 'p', 's'] ++ '\r' :: '\n' :: "*1\r\n$4\r\nPING\r\n".toList)) =
      handleConnection 1 [] 0 ("*1\r\n$4\r\nPING\r\n".toList) :=
  malformed_bulk_line_dropped [] 0 1 ['1'] ['o', 'o', 'p', 's'] "*1\r\n$4\r\nPING\r\n".toList 1
    (by decide) (by decide) (by decide) (by decide)
    (fun tl h => by
      rw [List.cons.injEq] at h
      exact absurd h.1 (by decide))

/-- Witness for C5 on a store holding a list under key `k`. -/
theorem get_wrongType_witness :
    mapGet [("k", ⟨.List, none, ["x"]⟩)] "k" = some ⟨.List, none, ["x"]⟩ ∧
    (getCmd [("k", ⟨.List, none, ["x"]⟩)] ["GET", "k"] 0 =
        some (wrongTypeReply, [("k", ⟨.List, none, ["x"]⟩)]) ∧
      wrongTypeReply ≠ "$-1\r\n") :=
  ⟨by decide, get_wrongType [("k", ⟨.List, none, ["x"]⟩)] "k" 0 ⟨.List, none, ["x"]⟩ (by decide) rfl⟩

/-- Witness for C7 on a well-formed store holding a list under key `k`. -/
theorem value_variant_invariant_witness :
    storeWF (setCmd [("k", ⟨.List, none, ["x"]⟩)] ["GET", "k"] 0).2 ∧
    storeWF (rpushCmd [("k", ⟨.List, none, ["x"]⟩)] ["GET", "k"]).2 ∧
    (∀ out st2, getCmd [("k", ⟨.List, none, ["x"]⟩)] ["GET", "k"] 0 = some (out, st2) →
      storeWF st2) ∧
    (getCmd [("k", ⟨.List, none, ["x"]⟩)] ["GET", "k"] 0).isSome = true ∧
    (∀ val, mapGet [("k", ⟨.List, none, ["x"]⟩)] "k" = some val → val.dataType = .List →
      mapGet (setCmd [("k", ⟨.List, none, ["x"]⟩)] ["SET", "k", "bar"] 0).2 "k" =
        some ⟨.String, some ⟨"bar", 0⟩, []⟩ ∧
      getCmd (setCmd [("k", ⟨.List, none, ["x"]⟩)] ["SET", "k", "bar"] 0).2 ["GET", "k"] 0 =
        some (bulkReply "bar", (setCmd [("k", ⟨.List, none, ["x"]⟩)] ["SET", "k", "bar"] 0).2)) :=
  value_variant_invariant [("k", ⟨.List, none, ["x"]⟩)] ["GET", "k"] 0 0 "k" "bar"
    (by
      intro p hp
      rw [List.mem_singleton] at hp
      subst hp
      exact rfl)

/-- Witness for the amended C8: arity errors for 1- and 2-argument SET,
lowercase `px` with 500 ms (a non-wrapping duration), the out-of-int64
millisecond numeral storing no expiry, and an ignored trailing
argument. -/
theorem set_arity_px_and_trailing_witness :
    goToUpper "px" = "PX" ∧ goAtoiL "500".toList = some 500 ∧
    (setCmd [] ["SET"] 0 = ("-ERR wrong number of arguments for 'set' command\r\n", []) ∧
      setCmd [] ["SET", "x"] 0 = ("-ERR wrong number of arguments for 'set' command\r\n", []) ∧
      setCmd [] ["SET", "foo", "bar", "px", "500"] 0 =
        ("+OK\r\n", mapSet [] "foo" ⟨.String, some ⟨"bar", 0 + goMsDuration 500⟩, []⟩) ∧
      (-9223372036854775808 ≤ (500 : Int) * 1000000 →
        (500 : Int) * 1000000 ≤ 9223372036854775807 →
        setCmd [] ["SET", "foo", "bar", "px", "500"] 0 =
          ("+OK\r\n", mapSet [] "foo" ⟨.String, some ⟨"bar", 0 + 500 * 1000000⟩, []⟩)) ∧
      setCmd [] ["SET", "foo", "bar", "px", "9223372036854775808"] 0 =
        ("+OK\r\n", mapSet [] "foo" ⟨.String, some ⟨"bar", 0⟩, []⟩) ∧
      setCmd [] ("SET" :: "foo" :: "bar" :: ["extra"]) 0 =
        ("+OK\r\n", mapSet [] "foo" ⟨.String, some ⟨"bar", 0⟩, []⟩)) :=
  ⟨by decide, by decide,
    set_arity_px_and_trailing [] 0 "x" "foo" "bar" "px" "500" 500 ["extra"]
      (by decide) (by decide)
      (fun p s h => by
        rw [List.cons.injEq] at h
        exact absurd h.2 (by simp))⟩

/-- Witness for C10: `SET foo bar PX oops` stores without expiry, replies
`+OK`, and `GET foo` still answers at time 99999. -/
theorem set_px_parse_fail_witness :
    goToUpper "PX" = "PX" ∧ goAtoiL "oops".toList = none ∧
    (setCmd [] ["SET", "foo", "bar", "PX", "oops"] 0 =
        ("+OK\r\n", mapSet [] "foo" ⟨.String, some ⟨"bar", 0⟩, []⟩) ∧
      getCmd (mapSet [] "foo" ⟨.String, some ⟨"bar", 0⟩, []⟩) ["GET", "foo"] 99999 =
        some (bulkReply "bar", mapSet [] "foo" ⟨.String, some ⟨"bar", 0⟩, []⟩)) :=
  ⟨by decide, by decide,
    set_px_parse_fail [] 0 99999 "foo" "bar" "PX" "oops" (by decide) (by decide)⟩

end RedisGo
